import Mathlib

/-!
Verification of the markdown flashcard parser in `src/lib.rs` of
`anki-md-sync`.  The parser is a line-oriented finite state machine:
each input line is classified into an event (`parse_event_type`),
the event drives a transition (`parse` dispatching to the `handle_*`
functions), and finished notes are assembled by `finalize_note` /
`finalize`.

Modelling conventions:
- A Rust `&str` is modelled as a `List Char` (its sequence of Unicode
  scalar values).  Rust's `starts_with` is char-sequence comparison,
  `split(":")` and `chars().count()` are char based; these are modelled
  directly on `List Char`.
- Rust byte slicing `&s[n..]` is byte-granular and panics when `n` is
  not a character boundary (or exceeds the byte length); it is modelled
  by `byteDrop`, which walks the char list accumulating UTF-8 byte
  sizes and returns `none` on a panic.  `parse_event_type` therefore
  returns an `Option`, `none` modelling a Rust panic.
- `markdown::to_html` is an external pure renderer; all definitions are
  parametrised by `render : List Char → List Char`.
- `line_num : u128` is modelled as a `Nat` stored modulo `2 ^ 128`
  (release-mode wrap-around semantics for `+= 1`).
- Rust `str::trim` (Unicode whitespace) is modelled with
  `Char.isWhitespace`.
- File IO of `AnkiMarkdownHandler::parse_file` is external; the driver
  `parse_file` here models its in-memory loop over an already-read list
  of lines: `handle_event` per line, then `finalize`.
-/

namespace AnkiMdSync

/-- Metadata fence literal `METADATA_DELIM = "---"` from lib.rs. -/
def METADATA_DELIM : List Char := ['-', '-', '-']

/-- Metadata key literal `DECK = "deck"` from lib.rs. -/
def DECK : List Char := ['d', 'e', 'c', 'k']

/-- Modulus of the `u128` line counter. -/
def U128_MOD : Nat := 2 ^ 128

/-- Anki note models (`enum Model`). -/
inductive Model where
  | Basic
  deriving DecidableEq, Repr

/-- A deck in anki (`struct Deck(String)`). -/
structure Deck where
  name : List Char
  deriving DecidableEq, Repr

/-- Parsed note record (`struct ParsedNote`). -/
structure ParsedNote where
  deck : Deck
  model : Model
  question : List Char
  answer : List Char
  deriving DecidableEq, Repr

/-- Parse errors (`enum ParseError`).  The `io::Error` payload of
`IOError` is external and not modelled; the parsing logic never
constructs that variant. -/
inductive ParseError where
  | InvalidStateChange (line : Nat)
  | UnexpectedParsingEnd
  | InvalidMetadata (detail : List Char)
  | MissingDeck
  | IOError
  deriving DecidableEq, Repr

/-- Parser states (`enum ParseState`). -/
inductive ParseState where
  | Start
  | InMetadata
  | ExpectingQuestion
  | InQuestion
  | InAnswer
  deriving DecidableEq, Repr

/-- Transition function `ParseState::next`. -/
def ParseState.next : ParseState → ParseState
  | .Start => .InMetadata
  | .InMetadata => .ExpectingQuestion
  | .ExpectingQuestion => .InQuestion
  | .InQuestion => .InAnswer
  | .InAnswer => .InQuestion

/-- Document-end reset `ParseState::reset`, defined only for
`InAnswer` and erroring with `UnexpectedParsingEnd` otherwise. -/
def ParseState.reset : ParseState → Except ParseError ParseState
  | .InAnswer => .ok .Start
  | _ => .error .UnexpectedParsingEnd

/-- Event kinds (`enum ParseEventType`). -/
inductive ParseEventType where
  | MetadataDelimiter
  | QuestionStart (rest : List Char)
  | AnswerStart (rest : List Char)
  | Text (line : List Char)
  | Empty
  deriving DecidableEq, Repr

/-- Rust `event.starts_with(token)` on char sequences. -/
def starts_with : List Char → List Char → Bool
  | _, [] => true
  | [], _ :: _ => false
  | e :: es, t :: ts => e == t && starts_with es ts

/-- Rust byte slicing `&s[n..]`: drop the first `n` BYTES of the UTF-8
encoding of `s`; `none` models the panic when `n` is not a character
boundary or exceeds the byte length. -/
def byteDrop : Nat → List Char → Option (List Char)
  | 0, l => some l
  | _ + 1, [] => none
  | n + 1, c :: cs =>
    if c.utf8Size ≤ n + 1 then byteDrop (n + 1 - c.utf8Size) cs else none

/-- Event classifier `Parser::parse_event_type`.  The question/answer
token lengths are passed separately, exactly as in the source (they
are char counts, while the slicing they feed is byte based). -/
def parse_event_type (event : List Char) (question_token : List Char)
    (question_token_len : Nat) (answer_token : List Char)
    (answer_token_len : Nat) : Option ParseEventType :=
  if starts_with event METADATA_DELIM then some .MetadataDelimiter
  else if starts_with event question_token then
    (byteDrop question_token_len event).map (fun r => .QuestionStart r)
  else if starts_with event answer_token then
    (byteDrop answer_token_len event).map (fun r => .AnswerStart r)
  else if event.isEmpty then some .Empty
  else some (.Text event)

/-- Parser scratch state (`struct Parser`). -/
structure Parser where
  state : ParseState
  question_token : List Char
  question_token_len : Nat
  answer_token : List Char
  answer_token_len : Nat
  deck : Option Deck
  question : List Char
  answer : List Char
  parsed : List ParsedNote
  line_num : Nat
  deriving DecidableEq, Repr

/-- Constructor `Parser::new`: token lengths are `chars().count()`. -/
def Parser.new (question_token answer_token : List Char) : Parser :=
  { state := .Start
    question_token := question_token
    question_token_len := question_token.length
    answer_token := answer_token
    answer_token_len := answer_token.length
    deck := none
    question := []
    answer := []
    parsed := []
    line_num := 0 }

/-- Default question token `"Q: "`. -/
def QTOK : List Char := ['Q', ':', ' ']

/-- Default answer token `"A: "`. -/
def ATOK : List Char := ['A', ':', ' ']

/-- Default parser, as built by `AnkiMarkdownHandler::default()` with
tokens `"Q: "` and `"A: "`. -/
def Parser.default : Parser := Parser.new QTOK ATOK

/-- Rust `split(":")` (auxiliary): accumulates the current chunk. -/
def splitOnColonAux : List Char → List Char → List (List Char)
  | [], acc => [acc.reverse]
  | c :: cs, acc =>
    if c = ':' then acc.reverse :: splitOnColonAux cs []
    else splitOnColonAux cs (c :: acc)

/-- Rust `event.split(":").collect()`: one chunk per colon-separated
segment (n colons give n+1 chunks). -/
def splitOnColon (l : List Char) : List (List Char) := splitOnColonAux l []

/-- Rust `str::trim` modelled with `Char.isWhitespace`. -/
def trim (l : List Char) : List Char :=
  ((l.dropWhile Char.isWhitespace).reverse.dropWhile Char.isWhitespace).reverse

/-- Note assembly `Parser::finalize_note`: requires a deck, renders the
buffers, appends the note, clears both buffers.  On `MissingDeck` the
parser is unchanged. -/
def finalize_note (render : List Char → List Char) (p : Parser) :
    Except ParseError Unit × Parser :=
  match p.deck with
  | none => (.error .MissingDeck, p)
  | some d =>
    (.ok (), { p with
        parsed := p.parsed ++ [{ deck := d, model := .Basic,
                                 question := render p.question,
                                 answer := render p.answer }]
        question := []
        answer := [] })

/-- Transition `Parser::handle_metadata_delim`. -/
def handle_metadata_delim (p : Parser) : Except ParseError Unit × Parser :=
  match p.state with
  | .Start => (.ok (), { p with state := ParseState.next .Start })
  | .InMetadata => (.ok (), { p with state := ParseState.next .InMetadata })
  | _ => (.error (.InvalidStateChange p.line_num), p)

/-- Transition `Parser::handle_question_start`. -/
def handle_question_start (render : List Char → List Char)
    (event : List Char) (p : Parser) : Except ParseError Unit × Parser :=
  match p.state with
  | .ExpectingQuestion =>
    (.ok (), { p with question := p.question ++ event ++ ['\n']
                      state := ParseState.next .ExpectingQuestion })
  | .InAnswer =>
    match finalize_note render p with
    | (.error e, p') => (.error e, p')
    | (.ok _, p') =>
      (.ok (), { p' with question := p'.question ++ event ++ ['\n']
                         state := ParseState.next .InAnswer })
  | _ => (.error (.InvalidStateChange p.line_num), p)

/-- Transition `Parser::handle_answer_start`. -/
def handle_answer_start (event : List Char) (p : Parser) :
    Except ParseError Unit × Parser :=
  match p.state with
  | .InQuestion =>
    (.ok (), { p with answer := p.answer ++ event ++ ['\n']
                      state := ParseState.next .InQuestion })
  | _ => (.error (.InvalidStateChange p.line_num), p)

/-- Transition `Parser::handle_text`.  In `InMetadata` the line is
split on EVERY colon and exactly two chunks are required; the first
must be the literal `deck`, the deck is the trimmed second chunk. -/
def handle_text (event : List Char) (p : Parser) :
    Except ParseError Unit × Parser :=
  match p.state with
  | .InQuestion => (.ok (), { p with question := p.question ++ event ++ ['\n'] })
  | .InAnswer => (.ok (), { p with answer := p.answer ++ event ++ ['\n'] })
  | .InMetadata =>
    match splitOnColon event with
    | [k, v] =>
      if k = DECK then (.ok (), { p with deck := some { name := trim v } })
      else (.error (.InvalidMetadata
        ((("Expecting 'deck' keyword, found: ").data) ++ event)), p)
    | _ => (.error (.InvalidMetadata
        ((("Unable to parse line: ").data) ++ event)), p)
  | _ => (.error (.InvalidStateChange p.line_num), p)

/-- Transition `Parser::handle_empty`. -/
def handle_empty (p : Parser) : Except ParseError Unit × Parser :=
  match p.state with
  | .InQuestion => (.ok (), { p with question := p.question ++ ['\n'] })
  | .InAnswer => (.ok (), { p with answer := p.answer ++ ['\n'] })
  | _ => (.ok (), p)

/-- Event dispatch `Parser::parse`. -/
def parse (render : List Char → List Char) (et : ParseEventType)
    (p : Parser) : Except ParseError Unit × Parser :=
  match et with
  | .MetadataDelimiter => handle_metadata_delim p
  | .QuestionStart e => handle_question_start render e p
  | .AnswerStart e => handle_answer_start e p
  | .Text e => handle_text e p
  | .Empty => handle_empty p

/-- Per-line entry point `Parser::handle_event`: classify, transition,
then increment the line counter (also on a failed transition).  `none`
models a Rust panic inside the classifier's slicing. -/
def handle_event (render : List Char → List Char) (event : List Char)
    (p : Parser) : Option (Except ParseError Unit × Parser) :=
  match parse_event_type event p.question_token p.question_token_len
      p.answer_token p.answer_token_len with
  | none => none
  | some et =>
    let rp := parse render et p
    some (rp.1, { rp.2 with line_num := (rp.2.line_num + 1) % U128_MOD })

/-- Terminal step `Parser::finalize`: only from `InAnswer`; assembles
the last note, resets state via `ParseState.reset`, clears the deck,
drains and returns the accumulated notes. -/
def finalize (render : List Char → List Char) (p : Parser) :
    Except ParseError (List ParsedNote) × Parser :=
  match p.state with
  | .InAnswer =>
    match finalize_note render p with
    | (.error e, p1) => (.error e, p1)
    | (.ok _, p1) =>
      match ParseState.reset p1.state with
      | .error e => (.error e, p1)
      | .ok s =>
        let p2 := { p1 with state := s, deck := none }
        (.ok p2.parsed, { p2 with parsed := [] })
  | _ => (.error (.InvalidStateChange p.line_num), p)

/-- Driver loop of `AnkiMarkdownHandler::parse_file` over in-memory
lines: feed each line to `handle_event`, stopping at the first error. -/
def processLines (render : List Char → List Char) :
    List (List Char) → Parser → Option (Except ParseError Unit × Parser)
  | [], p => some (.ok (), p)
  | l :: ls, p =>
    match handle_event render l p with
    | none => none
    | some (.ok _, p') => processLines render ls p'
    | some (.error e, p') => some (.error e, p')

/-- In-memory model of `AnkiMarkdownHandler::parse_file`: process all
lines, then `finalize`. -/
def parse_file (render : List Char → List Char) (lines : List (List Char))
    (p : Parser) : Option (Except ParseError (List ParsedNote) × Parser) :=
  match processLines render lines p with
  | none => none
  | some (.error e, p') => some (.error e, p')
  | some (.ok _, p') => some (finalize render p')

/-- Identity renderer used to instantiate the external-renderer
parameter in concrete runs. -/
def idRender : List Char → List Char := fun l => l

/-- A parser whose token fields are the defaults of
`AnkiMarkdownHandler::default()`. -/
def hasDefaultTokens (p : Parser) : Prop :=
  p.question_token = QTOK ∧ p.question_token_len = 3 ∧
  p.answer_token = ATOK ∧ p.answer_token_len = 3

/-- Line-counter increment applied by `handle_event` after each line
(`u128` wrap-around). -/
def bump (p : Parser) : Parser :=
  { p with line_num := (p.line_num + 1) % U128_MOD }

/-- Test whether a classified event is a question start. -/
def isQuestionEvent : Option ParseEventType → Bool
  | some (.QuestionStart _) => true
  | _ => false

/-- Number of question-start events among the input lines, under the
default tokens. -/
def numQuestionEvents (lines : List (List Char)) : Nat :=
  (lines.filter (fun l => isQuestionEvent (parse_event_type l QTOK 3 ATOK 3))).length

/-- One question/answer pair of a well-formed document: the question
first line, its continuation lines, the answer first line, its
continuation lines. -/
structure QAPair where
  q : List Char
  qBody : List (List Char)
  a : List Char
  aBody : List (List Char)

/-- A continuation line: classified neither as a delimiter nor as a
question or answer start under the default tokens. -/
def bodyOk (l : List Char) : Bool :=
  !starts_with l METADATA_DELIM && !starts_with l QTOK && !starts_with l ATOK

/-- All continuation lines of a pair are continuation lines. -/
def pairOk (qa : QAPair) : Bool := qa.qBody.all bodyOk && qa.aBody.all bodyOk

/-- Lines of one question/answer pair. -/
def mkPairLines (qa : QAPair) : List (List Char) :=
  (QTOK ++ qa.q) :: (qa.qBody ++ (ATOK ++ qa.a) :: qa.aBody)

/-- A well-formed document: fenced metadata block with one `deck` line,
then the flattened question/answer pairs. -/
def mkDoc (deckv : List Char) (pairs : List QAPair) : List (List Char) :=
  METADATA_DELIM :: (DECK ++ ':' :: deckv) :: METADATA_DELIM :: pairs.flatMap mkPairLines

/-- Buffer-discipline invariant: the question and answer buffers are
empty in `Start`, `InMetadata` and `ExpectingQuestion`; the answer
buffer is empty in `InQuestion`.  (In `InAnswer` both may be filled:
the question is kept until the note is assembled.) -/
def buffers_inv (p : Parser) : Bool :=
  match p.state with
  | .Start | .InMetadata | .ExpectingQuestion =>
    p.question.isEmpty && p.answer.isEmpty
  | .InQuestion => p.answer.isEmpty
  | .InAnswer => true

/-- Default parser moved into the `InMetadata` state. -/
def pInMetadata : Parser := { Parser.default with state := .InMetadata }

/-- Default parser moved into the `ExpectingQuestion` state. -/
def pExpectingQuestion : Parser := { Parser.default with state := .ExpectingQuestion }

/-- Default parser moved into the `InAnswer` state (deck still unset). -/
def pInAnswer : Parser := { Parser.default with state := .InAnswer }

/-- Default parser with an empty-string deck set. -/
def pDeckEmpty : Parser := { Parser.default with deck := some { name := [] } }

/-- Parser in `InAnswer` with a deck set and a nonzero line count. -/
def pInAnswerDeck : Parser :=
  { Parser.default with
      state := .InAnswer
      deck := some { name := ['d'] }
      question := ['q', '\n']
      answer := ['a', '\n']
      line_num := 7 }

/-! Basic lemmas about the classifier. -/

theorem starts_with_nil (e : List Char) : starts_with e [] = true := by
  cases e <;> rfl

theorem starts_with_cons (e : Char) (es : List Char) (t : Char) (ts : List Char) :
    starts_with (e :: es) (t :: ts) = (e == t && starts_with es ts) := rfl

theorem utf8Size_Q : ('Q').utf8Size = 1 := rfl

theorem utf8Size_A : ('A').utf8Size = 1 := rfl

theorem utf8Size_colon : (':').utf8Size = 1 := rfl

theorem utf8Size_space : (' ').utf8Size = 1 := rfl

/-- The default question token is ASCII, so the char-count slice is the
char drop: a line `"Q: " ++ q` classifies as `QuestionStart q`. -/
theorem classify_qline (q : List Char) :
    parse_event_type (QTOK ++ q) QTOK 3 ATOK 3 = some (.QuestionStart q) := by
  simp [parse_event_type, QTOK, ATOK, METADATA_DELIM, starts_with_cons,
    starts_with_nil, byteDrop, utf8Size_Q, utf8Size_colon, utf8Size_space]

/-- A line `"A: " ++ a` classifies as `AnswerStart a`. -/
theorem classify_aline (a : List Char) :
    parse_event_type (ATOK ++ a) QTOK 3 ATOK 3 = some (.AnswerStart a) := by
  simp [parse_event_type, QTOK, ATOK, METADATA_DELIM, starts_with_cons,
    starts_with_nil, byteDrop, utf8Size_A, utf8Size_colon, utf8Size_space]

/-- A line `"deck:" ++ v` classifies as plain text. -/
theorem classify_deck_line (v : List Char) :
    parse_event_type (DECK ++ ':' :: v) QTOK 3 ATOK 3 =
      some (.Text (DECK ++ ':' :: v)) := by
  simp [parse_event_type, QTOK, ATOK, METADATA_DELIM, DECK, starts_with_cons]

/-- The line `"---"` classifies as the metadata delimiter (under any
tokens: the delimiter check comes first). -/
theorem classify_delim (qt : List Char) (qn : Nat) (at_ : List Char) (an : Nat) :
    parse_event_type METADATA_DELIM qt qn at_ an = some .MetadataDelimiter := by
  simp [parse_event_type, METADATA_DELIM, starts_with_cons, starts_with_nil]

/-- A continuation line classifies as `Empty` or as plain text. -/
theorem classify_body (l : List Char) (h : bodyOk l = true) :
    parse_event_type l QTOK 3 ATOK 3 = some .Empty ∨
      parse_event_type l QTOK 3 ATOK 3 = some (.Text l) := by
  simp only [bodyOk, Bool.and_eq_true, Bool.not_eq_true'] at h
  obtain ⟨⟨h1, h2⟩, h3⟩ := h
  by_cases he : l.isEmpty
  · left; simp [parse_event_type, h1, h2, h3, he]
  · right; simp [parse_event_type, h1, h2, h3, he]

/-- C2 counterexample: the line `"----"` is not the fence literal
`"---"`, yet the classifier returns `MetadataDelimiter` for it (the
source tests `starts_with`, not equality). -/
theorem C2_cex :
    parse_event_type (("----").data) QTOK 3 ATOK 3 =
        some .MetadataDelimiter ∧
      ("----").data ≠ ("---").data ∧
      parse_event_type (("--- extra").data) QTOK 3 ATOK 3 =
        some .MetadataDelimiter := by
  refine ⟨rfl, by decide, rfl⟩

/-- C2 amended: a line classifies as `MetadataDelimiter` exactly when
it STARTS WITH the fence literal `"---"` (for any configured tokens:
the delimiter check has first precedence). -/
theorem C2_amended (event qt : List Char) (qn : Nat) (at_ : List Char) (an : Nat) :
    parse_event_type event qt qn at_ an = some .MetadataDelimiter ↔
      starts_with event METADATA_DELIM = true := by
  unfold parse_event_type
  split
  · simp [*]
  · split
    · rename_i h _
      simp only [Option.map_eq_some']
      constructor
      · rintro ⟨r, -, hr⟩; cases hr
      · intro hc; exact absurd hc (by simp [h])
    · split
      · rename_i h _ _
        simp only [Option.map_eq_some']
        constructor
        · rintro ⟨r, -, hr⟩; cases hr
        · intro hc; exact absurd hc (by simp [h])
      · split <;> rename_i h _ _ _ <;> simp [h]

/-- C4: the code measures the token in chars (`Parser::new` stores
`chars().count()`) but slices the line in bytes, so a multi-byte
question token mis-slices the remainder (here `" hi"` instead of
`"hi"`), and can even panic on a non-boundary (the `none` case). -/
theorem C4_multibyte_misslice :
    (Parser.new (("Ω: ").data) (("A: ").data)).question_token_len = 3 ∧
      parse_event_type (("Ω: hi").data) (("Ω: ").data) 3 (("A: ").data) 3 =
        some (.QuestionStart ((" hi").data)) ∧
      (" hi").data ≠ ("hi").data ∧
      parse_event_type (("aΩx").data) (("aΩ").data) 2 (("A: ").data) 3 = none := by
  refine ⟨rfl, rfl, by decide, rfl⟩

/-- C1 counterexample: a document ending immediately after a question
line (state `InQuestion`) makes `finalize` fail with
`InvalidStateChange 4` — not with `UnexpectedParsingEnd` as claimed.
(The state match in `Parser::finalize` returns `InvalidStateChange`
before `ParseState::reset` is ever consulted.) -/
theorem C1_cex :
    (parse_file idRender [("---").data, ("deck: d").data, ("---").data,
        ("Q: q").data] Parser.default).map Prod.fst =
      some (.error (.InvalidStateChange 4)) ∧
    ParseError.InvalidStateChange 4 ≠ ParseError.UnexpectedParsingEnd :=
  ⟨rfl, by decide⟩

/-- C1 amended: when the input leaves the parser in a state other than
`InAnswer`, the terminal `finalize` fails with
`InvalidStateChange` carrying the current line count; the
`UnexpectedParsingEnd` error of `ParseState.reset` is unreachable
through `finalize`. -/
theorem C1_amended (render : List Char → List Char) (p : Parser)
    (h : p.state ≠ .InAnswer) :
    finalize render p = (.error (.InvalidStateChange p.line_num), p) ∧
      ∀ q : Parser, (finalize render q).1 ≠ .error .UnexpectedParsingEnd := by
  constructor
  · cases hs : p.state
    case InAnswer => exact absurd hs h
    all_goals simp [finalize, hs]
  · intro q
    rcases q with ⟨st, qt, qn, at_, an, dk, qb, ab, pr, ln⟩
    cases st <;> cases dk <;>
      simp [finalize, finalize_note, ParseState.reset]

/-- C1 witness: the amended statement at the fresh default parser
(state `Start`). -/
theorem C1_witness :
    finalize idRender Parser.default =
        (.error (.InvalidStateChange Parser.default.line_num), Parser.default) ∧
      (finalize idRender Parser.default).1 ≠ .error .UnexpectedParsingEnd := by
  have h := C1_amended idRender Parser.default (by decide)
  exact ⟨h.1, h.2 Parser.default⟩

/-! Lemmas about `splitOnColon` (the model of Rust `split(":")`). -/

theorem splitOnColonAux_no_colon (l : List Char) (h : (':') ∉ l) :
    ∀ acc, splitOnColonAux l acc = [acc.reverse ++ l] := by
  induction l with
  | nil => intro acc; simp [splitOnColonAux]
  | cons c cs ih =>
    intro acc
    have hc : ¬(c = ':') := by rintro rfl; exact h (List.mem_cons_self _ _)
    have h' : (':') ∉ cs := fun hm => h (List.mem_cons_of_mem _ hm)
    simp [splitOnColonAux, hc, ih h']

theorem splitOnColonAux_colon (k : List Char) (h : (':') ∉ k) (rest : List Char) :
    ∀ acc, splitOnColonAux (k ++ ':' :: rest) acc =
      (acc.reverse ++ k) :: splitOnColonAux rest [] := by
  induction k with
  | nil => intro acc; simp [splitOnColonAux]
  | cons c cs ih =>
    intro acc
    have hc : ¬(c = ':') := by rintro rfl; exact h (List.mem_cons_self _ _)
    have h' : (':') ∉ cs := fun hm => h (List.mem_cons_of_mem _ hm)
    simp [splitOnColonAux, hc, ih h']

theorem splitOnColon_one (t : List Char) (h : (':') ∉ t) :
    splitOnColon t = [t] := by
  simp [splitOnColon, splitOnColonAux_no_colon t h]

theorem splitOnColon_two (k v : List Char) (hk : (':') ∉ k) (hv : (':') ∉ v) :
    splitOnColon (k ++ ':' :: v) = [k, v] := by
  simp [splitOnColon, splitOnColonAux_colon k hk, splitOnColonAux_no_colon v hv]

theorem splitOnColon_three (k v w : List Char) (hk : (':') ∉ k) (hv : (':') ∉ v)
    (hw : (':') ∉ w) :
    splitOnColon (k ++ ':' :: (v ++ ':' :: w)) = [k, v, w] := by
  simp [splitOnColon, splitOnColonAux_colon k hk, splitOnColonAux_colon v hv,
    splitOnColonAux_no_colon w hw]

theorem trim_all_whitespace (v : List Char)
    (h : ∀ c ∈ v, c.isWhitespace = true) : trim v = [] := by
  have h1 : v.dropWhile Char.isWhitespace = [] :=
    List.dropWhile_eq_nil_iff.mpr h
  simp [trim, h1]

/-- C3 counterexample: in `InMetadata`, the line `"deck: My: Deck"`
(whose value contains a colon) FAILS with `InvalidMetadata` instead of
succeeding with deck `"My: Deck"`: the source splits on every colon
and rejects any line that does not produce exactly two chunks. -/
theorem C3_cex :
    (processLines idRender [("---").data, ("deck: My: Deck").data]
        Parser.default).map Prod.fst =
      some (.error (.InvalidMetadata
        (("Unable to parse line: deck: My: Deck").data))) := rfl

/-- C3 amended: in `InMetadata` a `Text` line is split on EVERY colon
and must yield exactly two chunks.  With exactly one colon, the key
must be `deck` and the deck becomes the trimmed value; with no colon
or with two or more colons the transition fails with `InvalidMetadata`
whose detail contains the offending line; a wrong key also fails with
`InvalidMetadata` naming the line. -/
theorem C3_amended (p : Parser) (hs : p.state = .InMetadata) :
    (∀ k v : List Char, (':') ∉ k → (':') ∉ v →
        handle_text (k ++ ':' :: v) p =
          if k = DECK then (.ok (), { p with deck := some { name := trim v } })
          else (.error (.InvalidMetadata
            ((("Expecting 'deck' keyword, found: ").data) ++ (k ++ ':' :: v))), p)) ∧
      (∀ t : List Char, (':') ∉ t →
        handle_text t p =
          (.error (.InvalidMetadata ((("Unable to parse line: ").data) ++ t)), p)) ∧
      (∀ k v w : List Char, (':') ∉ k → (':') ∉ v → (':') ∉ w →
        handle_text (k ++ ':' :: (v ++ ':' :: w)) p =
          (.error (.InvalidMetadata
            ((("Unable to parse line: ").data) ++ (k ++ ':' :: (v ++ ':' :: w)))), p)) := by
  refine ⟨fun k v hk hv => ?_, fun t ht => ?_, fun k v w hk hv hw => ?_⟩
  · by_cases hdk : k = DECK
    · subst hdk
      simp [handle_text, hs, splitOnColon_two DECK v hk hv]
    · simp [handle_text, hs, splitOnColon_two k v hk hv, hdk]
  · simp [handle_text, hs, splitOnColon_one t ht]
  · simp [handle_text, hs, splitOnColon_three k v w hk hv hw]

/-- C3 witness: the amended statement applied in `InMetadata` to the
line `"deck: X"` (one colon, key `deck`) and to `"deck"` (no colon). -/
theorem C3_witness :
    handle_text (("deck: X").data) pInMetadata =
        (.ok (), { pInMetadata with deck := some { name := ("X").data } }) ∧
      handle_text (("deck").data) pInMetadata =
        (.error (.InvalidMetadata (("Unable to parse line: deck").data)),
          pInMetadata) := by
  have h := C3_amended pInMetadata rfl
  refine ⟨?_, ?_⟩
  · have h1 := h.1 (("deck").data) ((" X").data) (by decide) (by decide)
    simpa using h1
  · have h2 := h.2.1 (("deck").data) (by decide)
    simpa using h2

/-- C8: any note assembly attempted with no deck set fails with
`MissingDeck` and leaves the parser (in particular its result list)
unchanged — both at the implicit boundary (`QuestionStart` while
`InAnswer`) and at `finalize`. -/
theorem C8_missing_deck (render : List Char → List Char) (p : Parser)
    (h : p.deck = none) :
    finalize_note render p = (.error .MissingDeck, p) ∧
      (p.state = .InAnswer →
        (∀ rest, parse render (.QuestionStart rest) p = (.error .MissingDeck, p)) ∧
          finalize render p = (.error .MissingDeck, p)) := by
  have hfn : finalize_note render p = (.error .MissingDeck, p) := by
    simp [finalize_note, h]
  refine ⟨hfn, fun hs => ⟨fun rest => ?_, ?_⟩⟩
  · simp [parse, handle_question_start, hs, hfn]
  · simp [finalize, hs, hfn]

/-- C8 witness: the statement at a deckless parser in `InAnswer`. -/
theorem C8_witness :
    finalize_note idRender pInAnswer = (.error .MissingDeck, pInAnswer) ∧
      parse idRender (.QuestionStart ['r']) pInAnswer =
        (.error .MissingDeck, pInAnswer) ∧
      finalize idRender pInAnswer = (.error .MissingDeck, pInAnswer) := by
  have h := C8_missing_deck idRender pInAnswer rfl
  exact ⟨h.1, (h.2 rfl).1 ['r'], (h.2 rfl).2⟩

/-- C9: a metadata line `"deck:" ++ whitespace` is accepted in
`InMetadata` and sets the deck to the empty string, and any later
note assembly with the empty-string deck succeeds (producing notes
whose deck name is empty) instead of failing with `MissingDeck`. -/
theorem C9_empty_deck (render : List Char → List Char) (p : Parser) (v : List Char)
    (hd : hasDefaultTokens p) (hs : p.state = .InMetadata)
    (hv : ∀ c ∈ v, c.isWhitespace = true) :
    handle_event render (DECK ++ ':' :: v) p =
        some (.ok (), bump { p with deck := some { name := [] } }) ∧
      ∀ q : Parser, q.deck = some { name := [] } →
        finalize_note render q =
          (.ok (), { q with
              parsed := q.parsed ++ [{ deck := { name := [] }, model := .Basic,
                                       question := render q.question,
                                       answer := render q.answer }]
              question := []
              answer := [] }) := by
  obtain ⟨h1, h2, h3, h4⟩ := hd
  have hv' : (':') ∉ v := by
    intro hc
    have := hv ':' hc
    simp [Char.isWhitespace] at this
  constructor
  · have hdeck : (':') ∉ DECK := by decide
    simp [handle_event, h1, h2, h3, h4, classify_deck_line, parse, handle_text,
      hs, splitOnColon_two DECK v hdeck hv', trim_all_whitespace v hv, bump]
  · intro q hq
    simp [finalize_note, hq]

/-- C9 witness: the statement at a parser in `InMetadata` with the
line `"deck: "` (value a single space), and assembly from a parser
carrying the empty-string deck. -/
theorem C9_witness :
    handle_event idRender (DECK ++ ':' :: [' ']) pInMetadata =
        some (.ok (), bump { pInMetadata with deck := some { name := [] } }) ∧
      finalize_note idRender pDeckEmpty =
        (.ok (), { pDeckEmpty with
            parsed := pDeckEmpty.parsed ++
              [{ deck := { name := [] }, model := .Basic,
                 question := idRender pDeckEmpty.question,
                 answer := idRender pDeckEmpty.answer }]
            question := []
            answer := [] }) := by
  have h := C9_empty_deck idRender pInMetadata [' '] ⟨rfl, rfl, rfl, rfl⟩ rfl
    (by decide)
  exact ⟨h.1, h.2 pDeckEmpty rfl⟩

/-! The transitions never touch the line counter; only `handle_event`
increments it, once per line. -/

theorem finalize_note_line_num (render : List Char → List Char) (p : Parser) :
    (finalize_note render p).2.line_num = p.line_num := by
  cases hd : p.deck <;> simp [finalize_note, hd]

theorem parse_line_num (render : List Char → List Char) (et : ParseEventType)
    (p : Parser) : (parse render et p).2.line_num = p.line_num := by
  cases et with
  | MetadataDelimiter =>
    cases hs : p.state <;> simp [parse, handle_metadata_delim, hs]
  | QuestionStart e =>
    cases hs : p.state <;> simp only [parse, handle_question_start, hs]
    case InAnswer =>
      have hfn := finalize_note_line_num render p
      rcases h2 : finalize_note render p with ⟨r, p1⟩
      rw [h2] at hfn
      have hfn' : p1.line_num = p.line_num := by simpa using hfn
      cases r <;> simp [hfn']
  | AnswerStart e =>
    cases hs : p.state <;> simp [parse, handle_answer_start, hs]
  | Text e =>
    cases hs : p.state <;> simp only [parse, handle_text, hs]
    case InMetadata =>
      split
      · split <;> simp
      · simp
  | Empty =>
    cases hs : p.state <;> simp [parse, handle_empty, hs]

/-- Classification of the plain line `"x"` under default tokens. -/
theorem classify_x : parse_event_type ['x'] QTOK 3 ATOK 3 = some (.Text ['x']) := rfl

/-- C7: `handle_event` increments the line counter by exactly one,
whether the transition succeeds or fails, and an `AnswerStart` line
arriving in `ExpectingQuestion` fails with `InvalidStateChange`
carrying the pre-increment (0-based) line index. -/
theorem C7_line_counter (render : List Char → List Char) :
    (∀ (event : List Char) (p : Parser), p.line_num + 1 < U128_MOD →
        (handle_event render event p).elim True
          (fun rp => rp.2.line_num = p.line_num + 1)) ∧
      ∀ (rest : List Char) (p : Parser), hasDefaultTokens p →
        p.state = .ExpectingQuestion →
        (handle_event render (ATOK ++ rest) p).map Prod.fst =
          some (.error (.InvalidStateChange p.line_num)) := by
  constructor
  · intro event p hlt
    unfold handle_event
    cases hpe : parse_event_type event p.question_token p.question_token_len
        p.answer_token p.answer_token_len with
    | none => simp
    | some et => simp [parse_line_num, Nat.mod_eq_of_lt hlt]
  · intro rest p hd hs
    obtain ⟨h1, h2, h3, h4⟩ := hd
    simp [handle_event, h1, h2, h3, h4, classify_aline, parse,
      handle_answer_start, hs]

/-- C7 witness: a failing plain-text line on the fresh parser (counter
still increments), and the spec's `"A: ..."`-too-soon scenario in
`ExpectingQuestion`. -/
theorem C7_witness :
    (handle_event idRender ['x'] Parser.default).elim True
        (fun rp => rp.2.line_num = Parser.default.line_num + 1) ∧
      (handle_event idRender (ATOK ++ ['x']) pExpectingQuestion).map Prod.fst =
        some (.error (.InvalidStateChange pExpectingQuestion.line_num)) :=
  ⟨(C7_line_counter idRender).1 ['x'] Parser.default (by decide),
    (C7_line_counter idRender).2 ['x'] pExpectingQuestion ⟨rfl, rfl, rfl, rfl⟩ rfl⟩

/-- C10: a successful `finalize` resets the state to `Start`, clears
the deck, both buffers and the note list, and leaves the line counter
(and the token configuration) unchanged — so a next document's first
error reports a line number continued from the previous document's
total rather than 0. -/
theorem C10_finalize_frame (render : List Char → List Char) (p : Parser)
    (notes : List ParsedNote) (p' : Parser)
    (h : finalize render p = (.ok notes, p')) :
    p' = { state := .Start
           question_token := p.question_token
           question_token_len := p.question_token_len
           answer_token := p.answer_token
           answer_token_len := p.answer_token_len
           deck := none
           question := []
           answer := []
           parsed := []
           line_num := p.line_num } ∧
      (hasDefaultTokens p →
        (handle_event render ['x'] p').map Prod.fst =
          some (.error (.InvalidStateChange p.line_num))) := by
  cases hs : p.state
  case Start => simp [finalize, hs] at h
  case InMetadata => simp [finalize, hs] at h
  case ExpectingQuestion => simp [finalize, hs] at h
  case InQuestion => simp [finalize, hs] at h
  case InAnswer =>
  cases hd : p.deck with
  | none =>
    simp only [finalize, hs, finalize_note, hd] at h
    simp at h
  | some d =>
    simp only [finalize, hs, finalize_note, hd, ParseState.reset,
      Prod.mk.injEq, Except.ok.injEq] at h
    obtain ⟨-, hp'⟩ := h
    subst hp'
    refine ⟨rfl, fun hdft => ?_⟩
    obtain ⟨h1, h2, h3, h4⟩ := hdft
    simp [handle_event, h1, h2, h3, h4, classify_x, parse, handle_text]

/-- C10 witness: finalizing a parser in `InAnswer` with a deck and
line count 7; the reset parser keeps line count 7 and reports it in
the next error. -/
theorem C10_witness :
    ({ Parser.default with line_num := 7 } : Parser) =
        { state := .Start
          question_token := pInAnswerDeck.question_token
          question_token_len := pInAnswerDeck.question_token_len
          answer_token := pInAnswerDeck.answer_token
          answer_token_len := pInAnswerDeck.answer_token_len
          deck := none
          question := []
          answer := []
          parsed := []
          line_num := pInAnswerDeck.line_num } ∧
      (handle_event idRender ['x'] { Parser.default with line_num := 7 }).map
          Prod.fst =
        some (.error (.InvalidStateChange pInAnswerDeck.line_num)) := by
  have h := C10_finalize_frame idRender pInAnswerDeck
    [{ deck := { name := ['d'] }, model := .Basic,
       question := ['q', '\n'], answer := ['a', '\n'] }]
    { Parser.default with line_num := 7 } rfl
  exact ⟨h.1, h.2 ⟨rfl, rfl, rfl, rfl⟩⟩

/-! Preservation of the buffer discipline by every transition. -/

theorem buffers_inv_bump (p : Parser) : buffers_inv (bump p) = buffers_inv p := rfl

theorem parse_buffers_inv (render : List Char → List Char) (et : ParseEventType)
    (p : Parser) (h : buffers_inv p = true) :
    buffers_inv (parse render et p).2 = true := by
  cases et with
  | MetadataDelimiter =>
    cases hs : p.state <;>
      simp_all [parse, handle_metadata_delim, buffers_inv, hs, ParseState.next]
  | QuestionStart e =>
    cases hs : p.state <;>
      simp_all [parse, handle_question_start, buffers_inv, hs, ParseState.next]
    case InAnswer =>
      cases hd : p.deck with
      | none => simp [finalize_note, hd, buffers_inv, hs]
      | some d => simp [finalize_note, hd, buffers_inv]
  | AnswerStart e =>
    cases hs : p.state <;>
      simp_all [parse, handle_answer_start, buffers_inv, hs, ParseState.next]
  | Text e =>
    cases hs : p.state with
    | InMetadata =>
      have h2 : p.question = [] ∧ p.answer = [] := by
        simpa [buffers_inv, hs] using h
      simp only [parse, handle_text, hs]
      split
      · split <;> simp [buffers_inv, hs, h2.1, h2.2]
      · simp [buffers_inv, hs, h2.1, h2.2]
    | Start => simp_all [parse, handle_text, buffers_inv, hs]
    | ExpectingQuestion => simp_all [parse, handle_text, buffers_inv, hs]
    | InQuestion => simp_all [parse, handle_text, buffers_inv, hs]
    | InAnswer => simp_all [parse, handle_text, buffers_inv, hs]
  | Empty =>
    cases hs : p.state <;> simp_all [parse, handle_empty, buffers_inv, hs]

theorem handle_event_buffers_inv (render : List Char → List Char)
    (l : List Char) (p : Parser) (h : buffers_inv p = true)
    (r : Except ParseError Unit) (p' : Parser)
    (he : handle_event render l p = some (r, p')) : buffers_inv p' = true := by
  unfold handle_event at he
  cases hpe : parse_event_type l p.question_token p.question_token_len
      p.answer_token p.answer_token_len with
  | none => rw [hpe] at he; cases he
  | some et =>
    rw [hpe] at he
    simp only [Option.some.injEq, Prod.mk.injEq] at he
    obtain ⟨-, hp'⟩ := he
    subst hp'
    exact parse_buffers_inv render et p h

theorem processLines_buffers_inv (render : List Char → List Char)
    (lines : List (List Char)) :
    ∀ p p' : Parser, buffers_inv p = true →
      processLines render lines p = some (.ok (), p') →
      buffers_inv p' = true := by
  induction lines with
  | nil =>
    intro p p' h hp
    simp only [processLines, Option.some.injEq, Prod.mk.injEq] at hp
    obtain ⟨-, hp'⟩ := hp
    exact hp' ▸ h
  | cons l ls ih =>
    intro p p' h hp
    unfold processLines at hp
    cases he : handle_event render l p with
    | none => rw [he] at hp; cases hp
    | some rp =>
      rw [he] at hp
      rcases rp with ⟨r, q⟩
      cases r with
      | ok u =>
        have hq := handle_event_buffers_inv render l p h _ q he
        exact ih q p' hq (by simpa using hp)
      | error e => simp at hp

/-- C6 counterexample: after `"Q: q"` then `"A: a"` the parser is in
`InAnswer` while the QUESTION buffer still holds `"q\n"`: the question
is kept until note assembly, so non-empty question content is not
restricted to the `InQuestion` state as claimed. -/
theorem C6_cex :
    (processLines idRender [("---").data, ("deck: d").data, ("---").data,
        ("Q: q").data, ("A: a").data] Parser.default).map
        (fun x => (x.2.state, x.2.question)) =
      some (ParseState.InAnswer, ['q', '\n']) ∧
    (['q', '\n'] : List Char) ≠ [] := ⟨rfl, by decide⟩

/-- C6 amended: in every state reachable by successful transitions
from a fresh parser, the question buffer is non-empty only in
`InQuestion` or `InAnswer` and the answer buffer is non-empty only in
`InAnswer` (both are empty in `Start`, `InMetadata` and
`ExpectingQuestion`, and the answer buffer is empty in `InQuestion`);
and each successful note assembly clears both buffers. -/
theorem C6_amended (render : List Char → List Char) (qt at_ : List Char)
    (lines : List (List Char)) (p' : Parser)
    (h : processLines render lines (Parser.new qt at_) = some (.ok (), p')) :
    buffers_inv p' = true ∧
      ∀ q q' : Parser, finalize_note render q = (.ok (), q') →
        q'.question = [] ∧ q'.answer = [] := by
  refine ⟨processLines_buffers_inv render lines _ p' (by rfl) h, ?_⟩
  intro q q' hfn
  cases hd : q.deck with
  | none => simp [finalize_note, hd] at hfn
  | some d =>
    simp only [finalize_note, hd, Prod.mk.injEq, Except.ok.injEq] at hfn
    obtain ⟨-, hq'⟩ := hfn
    subst hq'
    exact ⟨rfl, rfl⟩

/-- C6 witness: the invariant holds at the parser reached by the
five-line document, and assembly from the empty-deck parser leaves
cleared buffers. -/
theorem C6_witness :
    buffers_inv { state := ParseState.InAnswer
                  question_token := QTOK
                  question_token_len := 3
                  answer_token := ATOK
                  answer_token_len := 3
                  deck := some { name := ['d'] }
                  question := ['q', '\n']
                  answer := ['a', '\n']
                  parsed := []
                  line_num := 5 } = true ∧
      ({ pDeckEmpty with
          parsed := [{ deck := { name := [] }, model := .Basic,
                       question := ([] : List Char),
                       answer := ([] : List Char) }] } : Parser).question = [] ∧
        ({ pDeckEmpty with
            parsed := [{ deck := { name := [] }, model := .Basic,
                         question := ([] : List Char),
                         answer := ([] : List Char) }] } : Parser).answer = [] := by
  have h := C6_amended idRender QTOK ATOK
    [("---").data, ("deck: d").data, ("---").data, ("Q: q").data, ("A: a").data]
    { state := ParseState.InAnswer
      question_token := QTOK
      question_token_len := 3
      answer_token := ATOK
      answer_token_len := 3
      deck := some { name := ['d'] }
      question := ['q', '\n']
      answer := ['a', '\n']
      parsed := []
      line_num := 5 } rfl
  refine ⟨h.1, h.2 pDeckEmpty _ rfl⟩

/-! Composition lemmas for the driver loop. -/

theorem processLines_nil (render : List Char → List Char) (p : Parser) :
    processLines render [] p = some (.ok (), p) := rfl

theorem processLines_cons_ok (render : List Char → List Char) (l : List Char)
    (ls : List (List Char)) (p q : Parser)
    (h : handle_event render l p = some (.ok (), q)) :
    processLines render (l :: ls) p = processLines render ls q := by
  conv_lhs => unfold processLines
  rw [h]

theorem processLines_append_ok (render : List Char → List Char)
    (xs ys : List (List Char)) :
    ∀ p q : Parser, processLines render xs p = some (.ok (), q) →
      processLines render (xs ++ ys) p = processLines render ys q := by
  induction xs with
  | nil =>
    intro p q h
    rw [processLines_nil] at h
    simp only [Option.some.injEq, Prod.mk.injEq] at h
    rw [List.nil_append, h.2]
  | cons l ls ih =>
    intro p q h
    unfold processLines at h
    rw [List.cons_append]
    cases he : handle_event render l p with
    | none => rw [he] at h; cases h
    | some rp =>
      rw [he] at h
      rcases rp with ⟨r, q1⟩
      cases r with
      | ok u =>
        rw [processLines_cons_ok render l (ls ++ ys) p q1 he]
        exact ih q1 q (by simpa using h)
      | error e => simp at h

/-! Single-line step lemmas under the default tokens. -/

theorem handle_event_delim_Start (render : List Char → List Char) (p : Parser)
    (hd : hasDefaultTokens p) (hs : p.state = .Start) :
    handle_event render METADATA_DELIM p =
      some (.ok (), bump { p with state := .InMetadata }) := by
  obtain ⟨h1, h2, h3, h4⟩ := hd
  simp [handle_event, h1, h2, h3, h4, classify_delim, parse,
    handle_metadata_delim, hs, ParseState.next, bump]

theorem handle_event_delim_InMetadata (render : List Char → List Char) (p : Parser)
    (hd : hasDefaultTokens p) (hs : p.state = .InMetadata) :
    handle_event render METADATA_DELIM p =
      some (.ok (), bump { p with state := .ExpectingQuestion }) := by
  obtain ⟨h1, h2, h3, h4⟩ := hd
  simp [handle_event, h1, h2, h3, h4, classify_delim, parse,
    handle_metadata_delim, hs, ParseState.next, bump]

theorem handle_event_deck_line (render : List Char → List Char) (v : List Char)
    (p : Parser) (hd : hasDefaultTokens p) (hs : p.state = .InMetadata)
    (hv : (':') ∉ v) :
    handle_event render (DECK ++ ':' :: v) p =
      some (.ok (), bump { p with deck := some { name := trim v } }) := by
  obtain ⟨h1, h2, h3, h4⟩ := hd
  have hdeck : (':') ∉ DECK := by decide
  simp [handle_event, h1, h2, h3, h4, classify_deck_line, parse, handle_text,
    hs, splitOnColon_two DECK v hdeck hv, bump]

theorem handle_event_qline_EQ (render : List Char → List Char) (q : List Char)
    (p : Parser) (hd : hasDefaultTokens p) (hs : p.state = .ExpectingQuestion) :
    handle_event render (QTOK ++ q) p =
      some (.ok (), bump { p with
          question := p.question ++ q ++ ['\n']
          state := .InQuestion }) := by
  obtain ⟨h1, h2, h3, h4⟩ := hd
  simp [handle_event, h1, h2, h3, h4, classify_qline, parse,
    handle_question_start, hs, ParseState.next, bump]

theorem handle_event_qline_IA (render : List Char → List Char) (q : List Char)
    (p : Parser) (d : Deck) (hd : hasDefaultTokens p) (hs : p.state = .InAnswer)
    (hdk : p.deck = some d) :
    handle_event render (QTOK ++ q) p =
      some (.ok (), bump { p with
          parsed := p.parsed ++ [{ deck := d, model := .Basic,
                                   question := render p.question,
                                   answer := render p.answer }]
          question := q ++ ['\n']
          answer := []
          state := .InQuestion }) := by
  obtain ⟨h1, h2, h3, h4⟩ := hd
  simp [handle_event, h1, h2, h3, h4, classify_qline, parse,
    handle_question_start, hs, finalize_note, hdk, ParseState.next, bump]

theorem handle_event_aline_IQ (render : List Char → List Char) (a : List Char)
    (p : Parser) (hd : hasDefaultTokens p) (hs : p.state = .InQuestion) :
    handle_event render (ATOK ++ a) p =
      some (.ok (), bump { p with
          answer := p.answer ++ a ++ ['\n']
          state := .InAnswer }) := by
  obtain ⟨h1, h2, h3, h4⟩ := hd
  simp [handle_event, h1, h2, h3, h4, classify_aline, parse,
    handle_answer_start, hs, ParseState.next, bump]

theorem handle_event_body (render : List Char → List Char) (l : List Char)
    (p : Parser) (hb : bodyOk l = true) (hd : hasDefaultTokens p)
    (hs : p.state = .InQuestion ∨ p.state = .InAnswer) :
    ∃ p', handle_event render l p = some (.ok (), p') ∧
      p'.state = p.state ∧ p'.deck = p.deck ∧ p'.parsed = p.parsed ∧
      hasDefaultTokens p' := by
  obtain ⟨h1, h2, h3, h4⟩ := hd
  rcases classify_body l hb with hc | hc <;> rcases hs with hs | hs
  · exact ⟨bump { p with question := p.question ++ ['\n'] },
      by simp [handle_event, h1, h2, h3, h4, hc, parse, handle_empty, hs, bump],
      by simp [bump, hs], rfl, rfl, h1, h2, h3, h4⟩
  · exact ⟨bump { p with answer := p.answer ++ ['\n'] },
      by simp [handle_event, h1, h2, h3, h4, hc, parse, handle_empty, hs, bump],
      by simp [bump, hs], rfl, rfl, h1, h2, h3, h4⟩
  · exact ⟨bump { p with question := p.question ++ l ++ ['\n'] },
      by simp [handle_event, h1, h2, h3, h4, hc, parse, handle_text, hs, bump],
      by simp [bump, hs], rfl, rfl, h1, h2, h3, h4⟩
  · exact ⟨bump { p with answer := p.answer ++ l ++ ['\n'] },
      by simp [handle_event, h1, h2, h3, h4, hc, parse, handle_text, hs, bump],
      by simp [bump, hs], rfl, rfl, h1, h2, h3, h4⟩

/-! Multi-line runs over the pieces of a well-formed document. -/

theorem processLines_body (render : List Char → List Char)
    (body : List (List Char)) :
    ∀ p : Parser, body.all bodyOk = true → hasDefaultTokens p →
      (p.state = .InQuestion ∨ p.state = .InAnswer) →
      ∃ p', processLines render body p = some (.ok (), p') ∧
        p'.state = p.state ∧ p'.deck = p.deck ∧ p'.parsed = p.parsed ∧
        hasDefaultTokens p' := by
  induction body with
  | nil => intro p hall hd hs; exact ⟨p, rfl, rfl, rfl, rfl, hd⟩
  | cons l ls ih =>
    intro p hall hd hs
    rw [List.all_cons, Bool.and_eq_true] at hall
    obtain ⟨hb, hall2⟩ := hall
    obtain ⟨p1, he, hst, hdk, hpr, hd1⟩ := handle_event_body render l p hb hd hs
    obtain ⟨p', hp', hst', hdk', hpr', hd'⟩ :=
      ih p1 hall2 hd1 (by rw [hst]; exact hs)
    exact ⟨p', by rw [processLines_cons_ok render l ls p p1 he]; exact hp',
      by rw [hst', hst], by rw [hdk', hdk], by rw [hpr', hpr], hd'⟩

theorem processLines_pair_tail (render : List Char → List Char) (qa : QAPair)
    (p1 : Parser) (hq : qa.qBody.all bodyOk = true)
    (ha : qa.aBody.all bodyOk = true) (hd : hasDefaultTokens p1)
    (hs : p1.state = .InQuestion) :
    ∃ p', processLines render (qa.qBody ++ (ATOK ++ qa.a) :: qa.aBody) p1 =
        some (.ok (), p') ∧
      p'.state = .InAnswer ∧ p'.deck = p1.deck ∧ p'.parsed = p1.parsed ∧
      hasDefaultTokens p' := by
  obtain ⟨p2, hp2, hst2, hdk2, hpr2, hd2⟩ :=
    processLines_body render qa.qBody p1 hq hd (Or.inl hs)
  have h3 := handle_event_aline_IQ render qa.a p2 hd2 (hst2.trans hs)
  obtain ⟨p4, hp4, hst4, hdk4, hpr4, hd4⟩ :=
    processLines_body render qa.aBody
      (bump { p2 with answer := p2.answer ++ qa.a ++ ['\n'], state := .InAnswer })
      ha hd2 (Or.inr rfl)
  refine ⟨p4, ?_, hst4, hdk4.trans hdk2, hpr4.trans hpr2, hd4⟩
  rw [processLines_append_ok render qa.qBody _ p1 p2 hp2,
    processLines_cons_ok render (ATOK ++ qa.a) qa.aBody p2 _ h3]
  exact hp4

theorem processLines_pair_EQ (render : List Char → List Char) (qa : QAPair)
    (p : Parser) (hok : pairOk qa = true) (hd : hasDefaultTokens p)
    (hs : p.state = .ExpectingQuestion) :
    ∃ p', processLines render (mkPairLines qa) p = some (.ok (), p') ∧
      p'.state = .InAnswer ∧ p'.deck = p.deck ∧ p'.parsed = p.parsed ∧
      hasDefaultTokens p' := by
  obtain ⟨hq, ha⟩ : qa.qBody.all bodyOk = true ∧ qa.aBody.all bodyOk = true := by
    simpa [pairOk] using hok
  have h1 := handle_event_qline_EQ render qa.q p hd hs
  obtain ⟨p', hp', hst', hdk', hpr', hd'⟩ :=
    processLines_pair_tail render qa
      (bump { p with question := p.question ++ qa.q ++ ['\n'], state := .InQuestion })
      hq ha hd rfl
  refine ⟨p', ?_, hst', hdk', hpr', hd'⟩
  rw [show mkPairLines qa =
      (QTOK ++ qa.q) :: (qa.qBody ++ (ATOK ++ qa.a) :: qa.aBody) from rfl,
    processLines_cons_ok render (QTOK ++ qa.q) _ p _ h1]
  exact hp'

theorem processLines_pair_IA (render : List Char → List Char) (qa : QAPair)
    (p : Parser) (d : Deck) (hok : pairOk qa = true) (hd : hasDefaultTokens p)
    (hs : p.state = .InAnswer) (hdk : p.deck = some d) :
    ∃ p', processLines render (mkPairLines qa) p = some (.ok (), p') ∧
      p'.state = .InAnswer ∧ p'.deck = some d ∧
      p'.parsed.length = p.parsed.length + 1 ∧ hasDefaultTokens p' := by
  obtain ⟨hq, ha⟩ : qa.qBody.all bodyOk = true ∧ qa.aBody.all bodyOk = true := by
    simpa [pairOk] using hok
  have h1 := handle_event_qline_IA render qa.q p d hd hs hdk
  obtain ⟨p', hp', hst', hdk', hpr', hd'⟩ :=
    processLines_pair_tail render qa
      (bump { p with
          parsed := p.parsed ++ [{ deck := d, model := .Basic,
                                   question := render p.question,
                                   answer := render p.answer }]
          question := qa.q ++ ['\n']
          answer := []
          state := .InQuestion })
      hq ha hd rfl
  refine ⟨p', ?_, hst', hdk'.trans hdk, ?_, hd'⟩
  · rw [show mkPairLines qa =
        (QTOK ++ qa.q) :: (qa.qBody ++ (ATOK ++ qa.a) :: qa.aBody) from rfl,
      processLines_cons_ok render (QTOK ++ qa.q) _ p _ h1]
    exact hp'
  · rw [hpr']
    simp [bump]

theorem processLines_pairs_IA (render : List Char → List Char)
    (pairs : List QAPair) :
    ∀ (p : Parser) (d : Deck), pairs.all pairOk = true → hasDefaultTokens p →
      p.state = .InAnswer → p.deck = some d →
      ∃ p', processLines render (pairs.flatMap mkPairLines) p =
          some (.ok (), p') ∧
        p'.state = .InAnswer ∧ p'.deck = some d ∧
        p'.parsed.length = p.parsed.length + pairs.length ∧
        hasDefaultTokens p' := by
  induction pairs with
  | nil => intro p d _ hd hs hdk; exact ⟨p, rfl, hs, hdk, rfl, hd⟩
  | cons qa rest ih =>
    intro p d hall hd hs hdk
    rw [List.all_cons, Bool.and_eq_true] at hall
    obtain ⟨hone, hrest⟩ := hall
    obtain ⟨p1, hp1, hst1, hdk1, hlen1, hd1⟩ :=
      processLines_pair_IA render qa p d hone hd hs hdk
    obtain ⟨p', hp', hst', hdk', hlen', hd'⟩ := ih p1 d hrest hd1 hst1 hdk1
    refine ⟨p', ?_, hst', hdk', ?_, hd'⟩
    · rw [List.flatMap_cons,
        processLines_append_ok render (mkPairLines qa) _ p p1 hp1]
      exact hp'
    · rw [hlen', hlen1, List.length_cons]
      omega

/-! Counting question-start events in a well-formed document. -/

theorem filter_body_nil (body : List (List Char)) :
    body.all bodyOk = true →
      body.filter (fun l => isQuestionEvent (parse_event_type l QTOK 3 ATOK 3)) =
        [] := by
  intro h
  rw [List.all_eq_true] at h
  rw [List.filter_eq_nil_iff]
  intro a ha
  rcases classify_body a (h a ha) with hc | hc <;> simp [hc, isQuestionEvent]

theorem countQ_pair (qa : QAPair) (hok : pairOk qa = true) :
    ((mkPairLines qa).filter
        (fun l => isQuestionEvent (parse_event_type l QTOK 3 ATOK 3))).length =
      1 := by
  obtain ⟨hq, ha⟩ : qa.qBody.all bodyOk = true ∧ qa.aBody.all bodyOk = true := by
    simpa [pairOk] using hok
  rw [show mkPairLines qa =
      (QTOK ++ qa.q) :: (qa.qBody ++ (ATOK ++ qa.a) :: qa.aBody) from rfl,
    List.filter_cons, List.filter_append, List.filter_cons,
    filter_body_nil qa.qBody hq, filter_body_nil qa.aBody ha]
  simp [classify_qline, classify_aline, isQuestionEvent]

theorem countQ_flatMap (pairs : List QAPair) :
    pairs.all pairOk = true →
      ((pairs.flatMap mkPairLines).filter
          (fun l => isQuestionEvent (parse_event_type l QTOK 3 ATOK 3))).length =
        pairs.length := by
  induction pairs with
  | nil => intro _; rfl
  | cons qa rest ih =>
    intro hok
    rw [List.all_cons, Bool.and_eq_true] at hok
    obtain ⟨h1, hr⟩ := hok
    rw [List.flatMap_cons, List.filter_append, List.length_append,
      countQ_pair qa h1, ih hr, List.length_cons]
    omega

theorem numQuestionEvents_mkDoc (deckv : List Char) (pairs : List QAPair)
    (hok : pairs.all pairOk = true) :
    numQuestionEvents (mkDoc deckv pairs) = pairs.length := by
  unfold numQuestionEvents mkDoc
  rw [List.filter_cons, List.filter_cons, List.filter_cons]
  simp only [classify_delim, classify_deck_line, isQuestionEvent]
  simpa using countQ_flatMap pairs hok

/-- Successful terminal step from `InAnswer` with a deck present. -/
theorem finalize_ok (render : List Char → List Char) (p : Parser) (d : Deck)
    (hs : p.state = .InAnswer) (hdk : p.deck = some d) :
    finalize render p =
      (.ok (p.parsed ++ [{ deck := d, model := .Basic,
                           question := render p.question,
                           answer := render p.answer }]),
        { p with
            state := .Start
            deck := none
            question := []
            answer := []
            parsed := [] }) := by
  simp [finalize, hs, finalize_note, hdk, ParseState.reset]

/-- C5: for every well-formed document (fenced metadata block with a
`deck` line, at least one question/answer pair, ending inside an
answer), parsing followed by `finalize` succeeds and returns exactly
as many notes as there are question-start events in the input. -/
theorem C5_wellformed_count (render : List Char → List Char) (deckv : List Char)
    (pairs : List QAPair) (hv : (':') ∉ deckv) (hne : pairs ≠ [])
    (hok : pairs.all pairOk = true) :
    (parse_file render (mkDoc deckv pairs) Parser.default).map
        (fun r => r.1.map List.length) =
      some (.ok (numQuestionEvents (mkDoc deckv pairs))) := by
  obtain ⟨qa, rest, rfl⟩ : ∃ qa rest, pairs = qa :: rest := by
    cases pairs with
    | nil => exact absurd rfl hne
    | cons a b => exact ⟨a, b, rfl⟩
  rw [numQuestionEvents_mkDoc deckv (qa :: rest) hok]
  rw [List.all_cons, Bool.and_eq_true] at hok
  obtain ⟨hok1, hokr⟩ := hok
  have hd0 : hasDefaultTokens Parser.default := ⟨rfl, rfl, rfl, rfl⟩
  have e1 := handle_event_delim_Start render Parser.default hd0 rfl
  have e2 := handle_event_deck_line render deckv
    (bump { Parser.default with state := .InMetadata }) ⟨rfl, rfl, rfl, rfl⟩ rfl hv
  have e3 := handle_event_delim_InMetadata render
    (bump { (bump { Parser.default with state := .InMetadata }) with
        deck := some { name := trim deckv } }) ⟨rfl, rfl, rfl, rfl⟩ rfl
  obtain ⟨p4, hp4, hst4, hdk4, hpr4, hd4⟩ :=
    processLines_pair_EQ render qa
      (bump { (bump { (bump { Parser.default with state := .InMetadata }) with
          deck := some { name := trim deckv } }) with state := .ExpectingQuestion })
      hok1 ⟨rfl, rfl, rfl, rfl⟩ rfl
  obtain ⟨pE, hpE, hstE, hdkE, hlenE, hdE⟩ :=
    processLines_pairs_IA render rest p4 { name := trim deckv } hokr hd4 hst4 hdk4
  have hrun : processLines render (mkDoc deckv (qa :: rest)) Parser.default =
      some (.ok (), pE) := by
    rw [show mkDoc deckv (qa :: rest) = METADATA_DELIM :: (DECK ++ ':' :: deckv) ::
        METADATA_DELIM :: ((qa :: rest).flatMap mkPairLines) from rfl]
    rw [processLines_cons_ok render _ _ _ _ e1,
      processLines_cons_ok render _ _ _ _ e2,
      processLines_cons_ok render _ _ _ _ e3,
      List.flatMap_cons,
      processLines_append_ok render (mkPairLines qa) _ _ p4 hp4]
    exact hpE
  have hfile : parse_file render (mkDoc deckv (qa :: rest)) Parser.default =
      some (finalize render pE) := by
    unfold parse_file
    rw [hrun]
  rw [hfile, finalize_ok render pE { name := trim deckv } hstE hdkE]
  have hlen0 : p4.parsed.length = 0 := by rw [hpr4]; rfl
  simp [Except.map, List.length_append, hlenE, hlen0]

/-- C5 witness: the spec's concrete Spanish two-pair document. -/
theorem C5_witness :
    (parse_file idRender (mkDoc (("Spanish").data)
        [⟨("hola").data, [], ("hello").data, []⟩,
         ⟨("adios").data, [], ("goodbye").data, []⟩]) Parser.default).map
        (fun r => r.1.map List.length) =
      some (.ok (numQuestionEvents (mkDoc (("Spanish").data)
        [⟨("hola").data, [], ("hello").data, []⟩,
         ⟨("adios").data, [], ("goodbye").data, []⟩]))) :=
  C5_wellformed_count idRender (("Spanish").data)
    [⟨("hola").data, [], ("hello").data, []⟩,
     ⟨("adios").data, [], ("goodbye").data, []⟩]
    (by decide) (List.cons_ne_nil _ _) rfl

end AnkiMdSync
